import Mathlib

/-!
Shallow embedding of the sale-transaction core of the `pos` repository
(a Django point-of-sale application).  The definitions below translate
`src/pos/views.py` (`sale_create`, `product_add`), `src/pos/models.py`
(the table schemas), `src/pos/forms.py` (`ProductForm`) and
`src/pos/admin.py` (`ProductAdminForm.clean`, `SaleAdmin.change_amount`).

Monetary amounts (`DecimalField`) are modelled as integers (a fixed-point
reading, e.g. cents); quantities are integers because the view parses them
with `int(...)` and applies no further constraint; dates are natural
numbers (days); a nullable `expiry_date` is an `Option Nat`.  Database
rows are lists of records with an explicit primary-key counter standing
for the auto-increment id.
-/

/-- Embedding of `pos.models.Product`: catalog entry with default selling `price` and a
`min_price` floor (fields irrelevant to the claims are omitted). -/
structure Product where
  id : Nat
  name : String
  price : Int
  min_price : Int
deriving DecidableEq, Repr

/-- Embedding of `pos.models.ProductStock` (the spec's `InventoryLot`): one batch of a
product at one branch, with `quantity`, `unit_cost` and an optional
`expiry_date`. -/
structure ProductStock where
  id : Nat
  productId : Nat
  branchId : Nat
  batch : String
  expiry_date : Option Nat
  quantity : Int
  unit_cost : Int
deriving DecidableEq, Repr

/-- Embedding of `pos.models.Customer`: phone is explicitly `unique=False`. -/
structure Customer where
  id : Nat
  name : String
  phone : String
deriving DecidableEq, Repr

/-- Embedding of `pos.models.Sale`: the committed transaction header. -/
structure Sale where
  id : Nat
  branchId : Nat
  customerId : Option Nat
  total : Int
  cash_received : Int
  notes : String
deriving DecidableEq, Repr

/-- Embedding of `pos.models.SaleItem`: one line of a sale, referencing the product and
the specific stock lot it was drawn from. -/
structure SaleItem where
  saleId : Nat
  productId : Nat
  productStockId : Nat
  unit_price : Int
  qty : Int
  line_total : Int
deriving DecidableEq, Repr

/-- The database state visible to the sale flow.  `nextSaleId` and
`nextCustomerId` model the auto-increment primary keys. -/
structure State where
  products : List Product
  stocks : List ProductStock
  customers : List Customer
  sales : List Sale
  saleItems : List SaleItem
  nextSaleId : Nat
  nextCustomerId : Nat
deriving DecidableEq, Repr

/-- One posted line item of the sale form: `item-i-product_id`,
`item-i-unit_price`, `item-i-qty` in `sale_create`. -/
structure ReqItem where
  product_id : Nat
  unit_price : Int
  qty : Int
deriving DecidableEq, Repr

/-- The POST payload of `sale_create` (cashier identity is ambient request
context and not part of the data the claims mention; an absent customer
phone is the empty string, matching the falsy check `if phone:`). -/
structure SaleRequest where
  branchId : Nat
  customer_phone : String
  customer_name : String
  notes : String
  items : List ReqItem
deriving DecidableEq, Repr

/-- The error outcomes `sale_create` can surface: the 404 on a missing
product, the three `messages.error` rejections, the empty-cart rejection,
and the uncaught `MultipleObjectsReturned` that `get_or_create` raises
when several customers share the phone. -/
inductive SaleError where
  | productNotFound (productId : Nat)
  | priceBelowFloor (productId : Nat) (floor : Int)
  | emptyCart
  | insufficientStock (productId : Nat) (branchId : Nat)
  | saleBelowCost (productId : Nat) (price : Int) (cost : Int)
  | multipleCustomers (phone : String)
deriving DecidableEq, Repr

/-- Result of a `sale_create` POST: either a committed sale (with the
resulting database state and the sale id) or an error together with the
database state left behind by the request. -/
inductive SaleResult where
  | ok (s : State) (saleId : Nat)
  | err (s : State) (e : SaleError)
deriving DecidableEq, Repr

/-- Lookup `get_object_or_404(Product, pk=pid)`: primary-key lookup. -/
def findProduct (ps : List Product) (pid : Nat) : Option Product :=
  ps.find? (fun p => p.id == pid)

/-- The item-parsing loop of `sale_create` (views.py lines 179-193): each
posted item is resolved to a product (404 when absent) and checked against
the product's `min_price`; the first violation aborts the request. -/
def validateItems (ps : List Product) : List ReqItem → Except SaleError (List (Product × ReqItem))
  | [] => .ok []
  | it :: rest =>
    match findProduct ps it.product_id with
    | none => .error (.productNotFound it.product_id)
    | some p =>
      if it.unit_price < p.min_price then
        .error (.priceBelowFloor p.id p.min_price)
      else
        match validateItems ps rest with
        | .error e => .error e
        | .ok l => .ok ((p, it) :: l)

/-- Semantics of `Customer.objects.get_or_create(phone=phone, defaults=\x7b"name": name or ""\x7d)`:
`get` raises `MultipleObjectsReturned` when more than one row matches,
returns the single match when exactly one does, and otherwise a new row is
created. -/
def getOrCreateCustomer (s : State) (phone name : String) : Except SaleError (State × Nat) :=
  match s.customers.filter (fun c => c.phone == phone) with
  | [] =>
      let c : Customer := ⟨s.nextCustomerId, name, phone⟩
      .ok ({ s with customers := s.customers ++ [c],
                    nextCustomerId := s.nextCustomerId + 1 }, c.id)
  | [c] => .ok (s, c.id)
  | _ => .error (.multipleCustomers phone)

/-- Query `ProductStock.objects.filter(product=..., branch=..., quantity__gte=qty)`:
the lots of the product at the branch that can fully satisfy the line. -/
def sufficientLots (stocks : List ProductStock) (pid bid : Nat) (qty : Int) : List ProductStock :=
  stocks.filter (fun st => st.productId == pid && st.branchId == bid && qty ≤ st.quantity)

/-- The ascending `order_by("expiry_date")` key: a null expiry sorts before
any date, and dates compare numerically. -/
def expiryLE : Option Nat → Option Nat → Bool
  | none, _ => true
  | some _, none => false
  | some a, some b => a ≤ b

/-- Left-to-right scan keeping the best (earliest-expiring) lot seen so
far, with the earlier list position winning ties. -/
def chooseLotAux : Option ProductStock → List ProductStock → Option ProductStock
  | acc, [] => acc
  | none, st :: rest => chooseLotAux (some st) rest
  | some best, st :: rest =>
      if expiryLE best.expiry_date st.expiry_date then chooseLotAux (some best) rest
      else chooseLotAux (some st) rest

/-- Selection `.order_by("expiry_date").first()`: the earliest-expiring lot of the
candidate list (the leftmost one among ties). -/
def chooseLot (lots : List ProductStock) : Option ProductStock :=
  chooseLotAux none lots

/-- Update `chosen_stock.quantity -= qty; chosen_stock.save()`: the row with the
chosen primary key is updated in place. -/
def decLot (stocks : List ProductStock) (sid : Nat) (q : Int) : List ProductStock :=
  stocks.map (fun st => if st.id == sid then { st with quantity := st.quantity - q } else st)

/-- Deletion `sale.delete()`: removes the Sale row and, by the `on_delete=CASCADE`
of `SaleItem.sale`, every SaleItem of that sale.  Stock rows are untouched. -/
def deleteSale (s : State) (sid : Nat) : State :=
  { s with sales := s.sales.filter (fun sa => sa.id != sid),
           saleItems := s.saleItems.filter (fun si => si.saleId != sid) }

/-- The per-item allocation loop inside `with transaction.atomic():`
(views.py lines 210-225).  On an insufficient-stock or below-cost line the
code runs `sale.delete()` and returns from inside the atomic block; a
normal (non-exception) exit commits the transaction, so the stock
decrements of earlier iterations persist in the error state. -/
def allocateItems (bid saleId : Nat) (s : State) : List (Product × ReqItem) → SaleResult
  | [] => .ok s saleId
  | (p, it) :: rest =>
    match chooseLot (sufficientLots s.stocks p.id bid it.qty) with
    | none => .err (deleteSale s saleId) (.insufficientStock p.id bid)
    | some chosen =>
      if it.unit_price < chosen.unit_cost then
        .err (deleteSale s saleId) (.saleBelowCost p.id it.unit_price chosen.unit_cost)
      else
        allocateItems bid saleId
          { s with
            stocks := decLot s.stocks chosen.id it.qty,
            saleItems := s.saleItems ++
              [⟨saleId, p.id, chosen.id, it.unit_price, it.qty, it.unit_price * it.qty⟩] }
          rest

/-- Customer resolution of `sale_create` (views.py lines 204-206):
`customer = None`, then `if phone:` the `get_or_create` call runs; an
empty phone (the falsy value a blank optional form field yields) leaves
the customer as `None`. -/
def resolveCustomer (s : State) (phone name : String) :
    Except SaleError (State × Option Nat) :=
  if phone == "" then .ok (s, none)
  else
    match getOrCreateCustomer s phone name with
    | .error e => .error e
    | .ok (s1, cid) => .ok (s1, some cid)

/-- The POST branch of `sale_create` (views.py lines 175-236): parse and
validate the items, reject an empty cart, resolve or create the customer
by phone, compute the total, create the Sale header with
`cash_received=total`, then allocate each line. -/
def submit_sale (s : State) (req : SaleRequest) : SaleResult :=
  match validateItems s.products req.items with
  | .error e => .err s e
  | .ok vitems =>
    if vitems.isEmpty then .err s .emptyCart
    else
      match resolveCustomer s req.customer_phone req.customer_name with
      | .error e => .err s e
      | .ok (s1, cid) =>
        let total := vitems.foldl (fun acc pit => acc + pit.2.unit_price * pit.2.qty) 0
        let saleId := s1.nextSaleId
        let s2 : State :=
          { s1 with
            sales := s1.sales ++ [⟨saleId, req.branchId, cid, total, total, req.notes⟩],
            nextSaleId := saleId + 1 }
        allocateItems req.branchId saleId s2 vitems

/-- Computation `SaleAdmin.change_amount` (admin.py): change due is
`cash_received - total`. -/
def change_amount (sale : Sale) : Int :=
  sale.cash_received - sale.total

/-- Validation of `pos.forms.ProductForm`: a bare ModelForm over name/category/description/
price/min_price.  The only validation the model contributes for these
fields is `MinValueValidator(0)` on `min_price`; there is no comparison of
`min_price` against `price`. -/
def productFormValid (price min_price : Int) : Bool :=
  0 ≤ min_price

/-- Validation of `ProductAdminForm.clean` (admin.py): on top of the model validation,
rejects `min_price > price`. -/
def productAdminFormValid (price min_price : Int) : Bool :=
  0 ≤ min_price && min_price ≤ price

/-- The POST branch of `product_add` (views.py lines 151-162): when
`ProductForm` validates, the product row is stored (the accompanying stock
form is not relevant to the pricing claims and is elided). -/
def product_add (s : State) (nextId : Nat) (name : String) (price min_price : Int) :
    Option State :=
  if productFormValid price min_price then
    some { s with products := s.products ++ [⟨nextId, name, price, min_price⟩] }
  else
    none

/-- Validation of `pos.forms.SaleItemForm`: declares `qty = IntegerField(min_value=1)`.
This form exists in the source but is never instantiated by `sale_create`,
which parses the posted items directly. -/
def saleItemFormValidQty (qty : Int) : Bool :=
  1 ≤ qty

/-- Well-formedness the database schema guarantees: primary keys are
unique, every existing row id is below the auto-increment counter, and
sale items reference existing (hence already-allocated) sale ids. -/
def WF (s : State) : Prop :=
  (s.stocks.map ProductStock.id).Nodup ∧
  (s.products.map Product.id).Nodup ∧
  (∀ sa ∈ s.sales, sa.id < s.nextSaleId) ∧
  (∀ c ∈ s.customers, c.id < s.nextCustomerId) ∧
  (∀ si ∈ s.saleItems, si.saleId < s.nextSaleId)

instance (s : State) : Decidable (WF s) := by
  unfold WF; infer_instance

/-- Resulting database state of a request, whether committed or rejected. -/
def SaleResult.state : SaleResult → State
  | .ok s _ => s
  | .err s _ => s

/-- Whether the request committed a sale. -/
def SaleResult.isOk : SaleResult → Bool
  | .ok _ _ => true
  | .err _ _ => false

/-- The surfaced error, when the request was rejected. -/
def SaleResult.errorOf : SaleResult → Option SaleError
  | .ok _ _ => none
  | .err _ e => some e

/-- Cost invariant between a sale-item table and a stock table: no stored
sale line is priced below the `unit_cost` of the stock lot it references. -/
def costInvL (items : List SaleItem) (stocks : List ProductStock) : Prop :=
  ∀ si ∈ items, ∀ st ∈ stocks, st.id = si.productStockId →
    st.unit_cost ≤ si.unit_price

/-- Floor invariant between a sale-item table and a product table: no
stored sale line is priced below the `min_price` of its product. -/
def floorInvL (items : List SaleItem) (ps : List Product) : Prop :=
  ∀ si ∈ items, ∀ p ∈ ps, p.id = si.productId →
    p.min_price ≤ si.unit_price

/-- Cost invariant of the spec, on a database state. -/
def costInv (s : State) : Prop :=
  costInvL s.saleItems s.stocks

/-- Floor invariant of the spec, on a database state. -/
def floorInv (s : State) : Prop :=
  floorInvL s.saleItems s.products

instance (items : List SaleItem) (stocks : List ProductStock) :
    Decidable (costInvL items stocks) := by
  unfold costInvL; infer_instance

instance (items : List SaleItem) (ps : List Product) :
    Decidable (floorInvL items ps) := by
  unfold floorInvL; infer_instance

instance (s : State) : Decidable (costInv s) := by
  unfold costInv; infer_instance

instance (s : State) : Decidable (floorInv s) := by
  unfold floorInv; infer_instance

/-- Non-negative stock: every lot holds a non-negative quantity. -/
def stocksNonneg (s : State) : Prop :=
  ∀ st ∈ s.stocks, 0 ≤ st.quantity

instance (s : State) : Decidable (stocksNonneg s) := by
  unfold stocksNonneg; infer_instance

/-- An item the parsing loop of `sale_create` lets through: its product
exists and its price is not below the product's floor. -/
def itemPasses (ps : List Product) (it : ReqItem) : Prop :=
  ∃ p, findProduct ps it.product_id = some p ∧ ¬ it.unit_price < p.min_price

/-- An empty database (auto-increment counters start at 1). -/
def emptyState : State := ⟨[], [], [], [], [], 1, 1⟩

/-- Example database: two catalog products, a single stocked lot of five
units of product 1 at branch 1. -/
def exTwoProducts : State :=
  ⟨[⟨1, "Amoxicillin", 10, 2⟩, ⟨2, "Ibuprofen", 10, 2⟩],
   [⟨1, 1, 1, "b1", some 10, 5, 1⟩], [], [], [], 1, 1⟩

/-- Example request: the first line consumes the whole lot of product 1,
the second line asks for product 2, which has no stock at all. -/
def exTwoLineReq : SaleRequest := ⟨1, "", "", "", [⟨1, 3, 5⟩, ⟨2, 3, 1⟩]⟩

/-- Example request with a negative quantity on its only line. -/
def exNegativeQtyReq : SaleRequest := ⟨1, "", "", "", [⟨1, 3, -3⟩]⟩

/-- Example database: one product whose stock at branch 1 is split over
two lots of three units each, so no single lot can cover a five-unit line
although the combined stock (six units) could. -/
def exSplitLots : State :=
  ⟨[⟨1, "Amoxicillin", 10, 2⟩],
   [⟨1, 1, 1, "b1", some 5, 3, 1⟩, ⟨2, 1, 1, "b2", some 6, 3, 1⟩],
   [], [], [], 1, 1⟩

/-- Example database: two existing customers share the phone number
`"0700"`; one product with a sufficient lot. -/
def exSharedPhone : State :=
  ⟨[⟨1, "Amoxicillin", 10, 2⟩],
   [⟨1, 1, 1, "b1", some 10, 5, 1⟩],
   [⟨1, "Alice", "0700"⟩, ⟨2, "Bob", "0700"⟩], [], [], 1, 3⟩

/-- Example request quoting the shared phone number. -/
def exSharedPhoneReq : SaleRequest := ⟨1, "0700", "Carol", "", [⟨1, 3, 5⟩]⟩

/-- Example database: one customer holding the phone number `"0700"`. -/
def exOneCustomer : State :=
  ⟨[], [], [⟨1, "Alice", "0700"⟩], [], [], 1, 2⟩

/-- Example lot expiring on day 5 with ten units at unit cost 1. -/
def exLot1 : ProductStock := ⟨1, 1, 1, "a", some 5, 10, 1⟩

/-- Example lot expiring on day 9 with ten units at unit cost 1. -/
def exLot2 : ProductStock := ⟨2, 1, 1, "b", some 9, 10, 1⟩

/-- Example database: one product stocked in the two lots above, both able
to satisfy a four-unit line. -/
def exFefoState : State :=
  ⟨[⟨1, "Amoxicillin", 10, 2⟩], [exLot1, exLot2], [], [], [], 1, 1⟩

/-- Example request: a four-unit line on product 1 at price 3. -/
def exFefoReq : SaleRequest := ⟨1, "", "", "", [⟨1, 3, 4⟩]⟩

/-- Example database: one product whose only lot was acquired at unit cost
5, above the floor price 2. -/
def exCostlyLot : State :=
  ⟨[⟨1, "Amoxicillin", 10, 2⟩], [⟨1, 1, 1, "b1", some 10, 5, 5⟩], [], [], [], 1, 1⟩

/-- Example request: price 3 is above the floor 2 but below the lot cost 5. -/
def exBelowCostReq : SaleRequest := ⟨1, "", "", "", [⟨1, 3, 2⟩]⟩

/-- Example request: one line that empties the five-unit lot at price 3. -/
def exOkReq : SaleRequest := ⟨1, "", "", "", [⟨1, 3, 5⟩]⟩

/-- Example request: price 1 is below the floor price 2 of product 1. -/
def exBelowFloorReq : SaleRequest := ⟨1, "", "", "", [⟨1, 1, 2⟩]⟩

/-! General lemmas about the allocation pipeline, shared by the claim
theorems below. -/

/-- A lot returned by the accumulator scan is the accumulator itself or a
member of the scanned list. -/
theorem chooseLotAux_mem :
    ∀ (lots : List ProductStock) (acc : Option ProductStock) (c : ProductStock),
      chooseLotAux acc lots = some c → acc = some c ∨ c ∈ lots := by
  intro lots
  induction lots with
  | nil => intro acc c h; cases acc <;> exact Or.inl h
  | cons st rest ih =>
    intro acc c h
    match acc with
    | none =>
      rcases ih (some st) c h with h1 | h1
      · exact Or.inr (by simp [Option.some.injEq] at h1; simp [h1])
      · exact Or.inr (List.mem_cons_of_mem _ h1)
    | some best =>
      unfold chooseLotAux at h
      by_cases hle : expiryLE best.expiry_date st.expiry_date
      · rw [if_pos hle] at h
        rcases ih _ _ h with h1 | h1
        · exact Or.inl h1
        · exact Or.inr (List.mem_cons_of_mem _ h1)
      · rw [if_neg hle] at h
        rcases ih _ _ h with h1 | h1
        · exact Or.inr (by simp at h1; simp [h1])
        · exact Or.inr (List.mem_cons_of_mem _ h1)

/-- The chosen lot is one of the candidates. -/
theorem chooseLot_mem (lots : List ProductStock) (c : ProductStock)
    (h : chooseLot lots = some c) : c ∈ lots := by
  rcases chooseLotAux_mem lots none c h with h1 | h1
  · cases h1
  · exact h1

/-- Membership in the sufficient-lot query implies membership in the stock
table together with the filter conditions. -/
theorem sufficientLots_sound (stocks : List ProductStock) (pid bid : Nat) (qty : Int)
    (st : ProductStock) (h : st ∈ sufficientLots stocks pid bid qty) :
    st ∈ stocks ∧ st.productId = pid ∧ st.branchId = bid ∧ qty ≤ st.quantity := by
  simp only [sufficientLots, List.mem_filter, Bool.and_eq_true, beq_iff_eq,
    decide_eq_true_eq] at h
  tauto

/-- Decrementing a lot leaves the sequence of primary keys unchanged. -/
theorem decLot_map_id (i : Nat) (q : Int) :
    ∀ stocks : List ProductStock,
      (decLot stocks i q).map ProductStock.id = stocks.map ProductStock.id := by
  intro stocks
  induction stocks with
  | nil => rfl
  | cons st rest ih =>
    simp only [decLot, List.map_cons] at *
    rw [ih]
    congr 1
    split <;> rfl

/-- Every row of the updated stock table comes from a row of the original
table, either decremented (when its key matches) or unchanged. -/
theorem decLot_mem (stocks : List ProductStock) (i : Nat) (q : Int)
    (st' : ProductStock) (h : st' ∈ decLot stocks i q) :
    ∃ st ∈ stocks,
      st' = if st.id == i then { st with quantity := st.quantity - q } else st := by
  simp only [decLot, List.mem_map] at h
  rcases h with ⟨st, hst, rfl⟩
  exact ⟨st, hst, rfl⟩

/-- Two stock rows with the same primary key are the same row, when the key
column is duplicate-free. -/
theorem mem_id_unique (stocks : List ProductStock)
    (hnd : (stocks.map ProductStock.id).Nodup) (a b : ProductStock)
    (ha : a ∈ stocks) (hb : b ∈ stocks) (hid : a.id = b.id) : a = b :=
  List.inj_on_of_nodup_map hnd ha hb hid

/-- A guarded decrement (the filter guarantees `q ≤ quantity` of the chosen
row) keeps every quantity non-negative. -/
theorem decLot_nonneg (stocks : List ProductStock) (chosen : ProductStock) (q : Int)
    (hnd : (stocks.map ProductStock.id).Nodup)
    (hmem : chosen ∈ stocks) (hq : q ≤ chosen.quantity)
    (hnn : ∀ st ∈ stocks, 0 ≤ st.quantity) :
    ∀ st ∈ decLot stocks chosen.id q, 0 ≤ st.quantity := by
  intro st' hst'
  obtain ⟨st, hst, heq⟩ := decLot_mem stocks chosen.id q st' hst'
  by_cases hid : st.id = chosen.id
  · have hsc : st = chosen := mem_id_unique stocks hnd st chosen hst hmem hid
    rw [if_pos (by simp [hid])] at heq
    rw [heq]
    show 0 ≤ st.quantity - q
    have hq2 : q ≤ st.quantity := by rw [hsc]; exact hq
    omega
  · rw [if_neg (by simp [hid])] at heq
    rw [heq]
    exact hnn st hst

/-- Customer creation or lookup touches only the customer table and its
counter. -/
theorem getOrCreateCustomer_ok_fields (s : State) (phone name : String)
    (s1 : State) (cid : Nat) (h : getOrCreateCustomer s phone name = .ok (s1, cid)) :
    s1.products = s.products ∧ s1.stocks = s.stocks ∧ s1.sales = s.sales ∧
    s1.saleItems = s.saleItems ∧ s1.nextSaleId = s.nextSaleId := by
  unfold getOrCreateCustomer at h
  split at h
  · simp only [Except.ok.injEq, Prod.mk.injEq] at h
    obtain ⟨h1, _⟩ := h
    subst h1
    exact ⟨rfl, rfl, rfl, rfl, rfl⟩
  · simp only [Except.ok.injEq, Prod.mk.injEq] at h
    obtain ⟨h1, _⟩ := h
    subst h1
    exact ⟨rfl, rfl, rfl, rfl, rfl⟩
  · cases h

/-- Customer resolution touches only the customer table and its counter. -/
theorem resolveCustomer_ok_fields (s : State) (phone name : String)
    (s1 : State) (cid : Option Nat)
    (h : resolveCustomer s phone name = .ok (s1, cid)) :
    s1.products = s.products ∧ s1.stocks = s.stocks ∧ s1.sales = s.sales ∧
    s1.saleItems = s.saleItems ∧ s1.nextSaleId = s.nextSaleId := by
  unfold resolveCustomer at h
  by_cases hp : (phone == "") = true
  · rw [if_pos hp] at h
    simp only [Except.ok.injEq, Prod.mk.injEq] at h
    obtain ⟨h1, _⟩ := h
    subst h1
    exact ⟨rfl, rfl, rfl, rfl, rfl⟩
  · rw [if_neg hp] at h
    cases hg : getOrCreateCustomer s phone name with
    | error e => rw [hg] at h; cases h
    | ok pair =>
      obtain ⟨s2, c⟩ := pair
      rw [hg] at h
      dsimp only at h
      simp only [Except.ok.injEq, Prod.mk.injEq] at h
      obtain ⟨h1, _⟩ := h
      subst h1
      exact getOrCreateCustomer_ok_fields s phone name s2 c hg

/-- A committed allocation loop never modifies the sale table or the
product table, and reports the sale id it was given. -/
theorem allocateItems_ok_frame (bid sid : Nat) :
    ∀ (l : List (Product × ReqItem)) (s s' : State) (sid' : Nat),
      allocateItems bid sid s l = .ok s' sid' →
      s'.sales = s.sales ∧ s'.products = s.products ∧ sid' = sid := by
  intro l
  induction l with
  | nil =>
    intro s s' sid' h
    unfold allocateItems at h
    cases h
    exact ⟨rfl, rfl, rfl⟩
  | cons pit rest ih =>
    intro s s' sid' h
    obtain ⟨p, it⟩ := pit
    unfold allocateItems at h
    cases hc : chooseLot (sufficientLots s.stocks p.id bid it.qty) with
    | none => rw [hc] at h; cases h
    | some chosen =>
      rw [hc] at h
      dsimp only at h
      by_cases hcost : it.unit_price < chosen.unit_cost
      · rw [if_pos hcost] at h; cases h
      · rw [if_neg hcost] at h
        have h2 := ih _ _ _ h
        exact h2

/-- The allocation loop keeps every stock quantity non-negative, on the
committed path and on both rejection paths alike. -/
theorem allocateItems_nonneg (bid sid : Nat) :
    ∀ (l : List (Product × ReqItem)) (s : State),
      (s.stocks.map ProductStock.id).Nodup →
      (∀ st ∈ s.stocks, 0 ≤ st.quantity) →
      ∀ st ∈ (allocateItems bid sid s l).state.stocks, 0 ≤ st.quantity := by
  intro l
  induction l with
  | nil => intro s hnd hnn; exact hnn
  | cons pit rest ih =>
    intro s hnd hnn
    obtain ⟨p, it⟩ := pit
    unfold allocateItems
    cases hc : chooseLot (sufficientLots s.stocks p.id bid it.qty) with
    | none => exact hnn
    | some chosen =>
      dsimp only
      by_cases hcost : it.unit_price < chosen.unit_cost
      · rw [if_pos hcost]; exact hnn
      · rw [if_neg hcost]
        have hmem := chooseLot_mem _ _ hc
        have hsuff := sufficientLots_sound s.stocks p.id bid it.qty chosen hmem
        apply ih
        · show ((decLot s.stocks chosen.id it.qty).map ProductStock.id).Nodup
          rw [decLot_map_id]; exact hnd
        · show ∀ st ∈ decLot s.stocks chosen.id it.qty, 0 ≤ st.quantity
          exact decLot_nonneg s.stocks chosen it.qty hnd hsuff.1 hsuff.2.2.2 hnn

/-- A found product is a member of the table and carries the looked-up
primary key. -/
theorem findProduct_mem (ps : List Product) (pid : Nat) (p : Product)
    (h : findProduct ps pid = some p) : p ∈ ps ∧ p.id = pid := by
  unfold findProduct at h
  refine ⟨List.mem_of_find?_eq_some h, ?_⟩
  have h2 := List.find?_some h
  simpa using h2

/-- Every pair the parsing loop lets through consists of the product found
for the posted id together with a price not below its floor. -/
theorem validateItems_ok_spec (ps : List Product) :
    ∀ (items : List ReqItem) (vitems : List (Product × ReqItem)),
      validateItems ps items = .ok vitems →
      ∀ pit ∈ vitems,
        findProduct ps pit.2.product_id = some pit.1 ∧
        ¬ pit.2.unit_price < pit.1.min_price := by
  intro items
  induction items with
  | nil =>
    intro vitems h
    unfold validateItems at h
    cases h
    intro pit hpit
    cases hpit
  | cons it rest ih =>
    intro vitems h
    unfold validateItems at h
    cases hf : findProduct ps it.product_id with
    | none => rw [hf] at h; cases h
    | some p =>
      rw [hf] at h
      dsimp only at h
      by_cases hfl : it.unit_price < p.min_price
      · rw [if_pos hfl] at h; cases h
      · rw [if_neg hfl] at h
        cases hrest : validateItems ps rest with
        | error e => rw [hrest] at h; cases h
        | ok l =>
          rw [hrest] at h
          dsimp only at h
          cases h
          intro pit hpit
          rcases List.mem_cons.mp hpit with rfl | hmem
          · exact ⟨hf, hfl⟩
          · exact ih l hrest pit hmem

/-- When every earlier posted item passes the parsing checks and some item
quotes a price below its product's floor, the parsing loop stops with the
price-below-floor rejection for that item. -/
theorem validateItems_floor_err (ps : List Product) (p : Product) (it : ReqItem)
    (hfp : findProduct ps it.product_id = some p)
    (hlt : it.unit_price < p.min_price) :
    ∀ (pre rest : List ReqItem), (∀ x ∈ pre, itemPasses ps x) →
      validateItems ps (pre ++ it :: rest) =
        .error (.priceBelowFloor p.id p.min_price) := by
  intro pre
  induction pre with
  | nil =>
    intro rest _
    rw [List.nil_append]
    simp only [validateItems, hfp, if_pos hlt]
  | cons y pre ih =>
    intro rest hpass
    obtain ⟨q, hq, hnq⟩ := hpass y (List.mem_cons_self _ _)
    rw [List.cons_append]
    simp only [validateItems, hq, if_neg hnq]
    rw [ih rest (fun x hx => hpass x (List.mem_cons_of_mem _ hx))]

/-- Running `sale_create` on a single validated line with no customer
phone reduces to the allocation loop over that line, on the state holding
the freshly created sale header. -/
theorem submit_sale_single (s : State) (req : SaleRequest) (it : ReqItem) (p : Product)
    (hitems : req.items = [it])
    (hphone : req.customer_phone = "")
    (hfp : findProduct s.products it.product_id = some p)
    (hfl : ¬ it.unit_price < p.min_price) :
    submit_sale s req =
      allocateItems req.branchId s.nextSaleId
        { s with
          sales := s.sales ++
            [⟨s.nextSaleId, req.branchId, none, 0 + it.unit_price * it.qty,
              0 + it.unit_price * it.qty, req.notes⟩],
          nextSaleId := s.nextSaleId + 1 } [(p, it)] := by
  have hv : validateItems s.products [it] = .ok [(p, it)] := by
    simp only [validateItems, hfp, if_neg hfl]
  have hr : resolveCustomer s req.customer_phone req.customer_name = .ok (s, none) := by
    unfold resolveCustomer
    rw [hphone]
    simp
  unfold submit_sale
  rw [hitems, hv]
  dsimp only
  rw [if_neg (by simp)]
  rw [hr]
  rfl

/-- Inversion of a committed `sale_create` run: validation succeeded on a
non-empty cart, the customer resolved, and the allocation loop committed
from the state holding the new sale header. -/
theorem submit_sale_ok_inv (s : State) (req : SaleRequest) (s' : State) (sid : Nat)
    (h : submit_sale s req = .ok s' sid) :
    ∃ vitems s1 cid,
      validateItems s.products req.items = .ok vitems ∧
      vitems.isEmpty = false ∧
      resolveCustomer s req.customer_phone req.customer_name = .ok (s1, cid) ∧
      allocateItems req.branchId s1.nextSaleId
        { s1 with
          sales := s1.sales ++
            [⟨s1.nextSaleId, req.branchId, cid,
              vitems.foldl (fun acc pit => acc + pit.2.unit_price * pit.2.qty) 0,
              vitems.foldl (fun acc pit => acc + pit.2.unit_price * pit.2.qty) 0,
              req.notes⟩],
          nextSaleId := s1.nextSaleId + 1 } vitems = .ok s' sid := by
  unfold submit_sale at h
  cases hv : validateItems s.products req.items with
  | error e => rw [hv] at h; cases h
  | ok vitems =>
    rw [hv] at h
    dsimp only at h
    by_cases he : vitems.isEmpty
    · rw [if_pos he] at h; cases h
    · rw [if_neg he] at h
      cases hr : resolveCustomer s req.customer_phone req.customer_name with
      | error e => rw [hr] at h; cases h
      | ok pair =>
        obtain ⟨s1, cid⟩ := pair
        rw [hr] at h
        dsimp only at h
        exact ⟨vitems, s1, cid, rfl, by simpa using he, rfl, h⟩

/-- Filtering out the id of a sale that is newer than every stored sale
restores the stored sale table exactly. -/
theorem filter_sales_restore (sales : List Sale) (sid : Nat)
    (hlt : ∀ sa ∈ sales, sa.id < sid) (nw : Sale) (hnew : nw.id = sid) :
    (sales ++ [nw]).filter (fun sa => sa.id != sid) = sales := by
  rw [List.filter_append]
  have h1 : sales.filter (fun sa => sa.id != sid) = sales :=
    List.filter_eq_self.mpr (fun sa hsa => by
      have h3 := hlt sa hsa
      simp only [bne_iff_ne, ne_eq, decide_eq_true_eq]
      omega)
  have h2 : List.filter (fun sa => sa.id != sid) [nw] = [] := by
    simp [hnew]
  rw [h1, h2, List.append_nil]

/-- Filtering out a sale id that is newer than every stored sale item
leaves the sale-item table unchanged. -/
theorem filter_items_restore (items : List SaleItem) (sid : Nat)
    (hlt : ∀ si ∈ items, si.saleId < sid) :
    items.filter (fun si => si.saleId != sid) = items :=
  List.filter_eq_self.mpr (fun si hsi => by
    have h3 := hlt si hsi
    simp only [bne_iff_ne, ne_eq, decide_eq_true_eq]
    omega)

/-- Decrementing a lot's quantity never disturbs the cost invariant: ids
and unit costs are untouched. -/
theorem costInvL_decLot (items : List SaleItem) (stocks : List ProductStock) (i : Nat) (q : Int)
    (h : costInvL items stocks) : costInvL items (decLot stocks i q) := by
  intro si hsi st' hst' hid
  obtain ⟨st, hst, heq⟩ := decLot_mem stocks i q st' hst'
  have hpres : st'.id = st.id ∧ st'.unit_cost = st.unit_cost := by
    rw [heq]; split <;> exact ⟨rfl, rfl⟩
  rw [hpres.2]
  exact h si hsi st hst (hpres.1 ▸ hid)

/-- A committed allocation loop preserves the cost invariant: each staged
line was checked against the chosen lot's `unit_cost` before being stored. -/
theorem allocateItems_costInv (bid sid : Nat) :
    ∀ (l : List (Product × ReqItem)) (s s' : State) (sid' : Nat),
      (s.stocks.map ProductStock.id).Nodup →
      costInvL s.saleItems s.stocks →
      allocateItems bid sid s l = .ok s' sid' →
      costInvL s'.saleItems s'.stocks := by
  intro l
  induction l with
  | nil =>
    intro s s' sid' hnd hinv h
    unfold allocateItems at h
    cases h
    exact hinv
  | cons pit rest ih =>
    intro s s' sid' hnd hinv h
    obtain ⟨p, it⟩ := pit
    unfold allocateItems at h
    cases hc : chooseLot (sufficientLots s.stocks p.id bid it.qty) with
    | none => rw [hc] at h; cases h
    | some chosen =>
      rw [hc] at h
      dsimp only at h
      by_cases hcost : it.unit_price < chosen.unit_cost
      · rw [if_pos hcost] at h; cases h
      · rw [if_neg hcost] at h
        have hmem0 := chooseLot_mem _ _ hc
        have hsuff := sufficientLots_sound s.stocks p.id bid it.qty chosen hmem0
        refine ih _ _ _ ?_ ?_ h
        · show ((decLot s.stocks chosen.id it.qty).map ProductStock.id).Nodup
          rw [decLot_map_id]; exact hnd
        · show costInvL
            (s.saleItems ++
              [⟨sid, p.id, chosen.id, it.unit_price, it.qty, it.unit_price * it.qty⟩])
            (decLot s.stocks chosen.id it.qty)
          intro si hsi st' hst' hid
          rcases List.mem_append.mp hsi with hold | hnew2
          · exact costInvL_decLot _ _ _ _ hinv si hold st' hst' hid
          · have hsi_eq :
                si = ⟨sid, p.id, chosen.id, it.unit_price, it.qty, it.unit_price * it.qty⟩ := by
              simpa using hnew2
            subst hsi_eq
            obtain ⟨st, hst, heq⟩ := decLot_mem _ _ _ st' hst'
            have hpres : st'.id = st.id ∧ st'.unit_cost = st.unit_cost := by
              rw [heq]; split <;> exact ⟨rfl, rfl⟩
            have hstid : st.id = chosen.id := by
              rw [← hpres.1]; exact hid
            have hsteq : st = chosen := mem_id_unique s.stocks hnd st chosen hst hsuff.1 hstid
            rw [hpres.2, hsteq]
            show chosen.unit_cost ≤ it.unit_price
            omega

/-- A committed allocation loop preserves the floor invariant relative to
a fixed product table, provided every processed pair was produced by the
parsing checks. -/
theorem allocateItems_floorInv (bid sid : Nat) (ps : List Product)
    (hndp : (ps.map Product.id).Nodup) :
    ∀ (l : List (Product × ReqItem)) (s s' : State) (sid' : Nat),
      (∀ pit ∈ l, findProduct ps pit.2.product_id = some pit.1 ∧
        ¬ pit.2.unit_price < pit.1.min_price) →
      floorInvL s.saleItems ps →
      allocateItems bid sid s l = .ok s' sid' →
      floorInvL s'.saleItems ps := by
  intro l
  induction l with
  | nil =>
    intro s s' sid' hl hinv h
    unfold allocateItems at h
    cases h
    exact hinv
  | cons pit rest ih =>
    intro s s' sid' hl hinv h
    obtain ⟨p, it⟩ := pit
    obtain ⟨hfp, hfl⟩ := hl (p, it) (List.mem_cons_self _ _)
    dsimp only at hfp hfl
    unfold allocateItems at h
    cases hc : chooseLot (sufficientLots s.stocks p.id bid it.qty) with
    | none => rw [hc] at h; cases h
    | some chosen =>
      rw [hc] at h
      dsimp only at h
      by_cases hcost : it.unit_price < chosen.unit_cost
      · rw [if_pos hcost] at h; cases h
      · rw [if_neg hcost] at h
        refine ih _ _ _ (fun x hx => hl x (List.mem_cons_of_mem _ hx)) ?_ h
        show floorInvL
          (s.saleItems ++
            [⟨sid, p.id, chosen.id, it.unit_price, it.qty, it.unit_price * it.qty⟩]) ps
        intro si hsi p' hp' hid
        rcases List.mem_append.mp hsi with hold | hnew2
        · exact hinv si hold p' hp' hid
        · have hsi_eq :
              si = ⟨sid, p.id, chosen.id, it.unit_price, it.qty, it.unit_price * it.qty⟩ := by
            simpa using hnew2
          subst hsi_eq
          obtain ⟨hpmem, hpid⟩ := findProduct_mem ps it.product_id p hfp
          have hpp : p' = p := List.inj_on_of_nodup_map hndp hp' hpmem hid
          rw [hpp]
          show p.min_price ≤ it.unit_price
          omega

/-! Claim theorems. -/

/-- Claim C1 (code behaviour at the failing input): with two posted lines,
the first line decrements the only lot of product 1 and the second line
then fails for lack of stock; `sale.delete()` restores the Sale and
SaleItem tables, but the transaction commits on the normal return, so the
first line's decrement survives — the ProductStock table is NOT the
pre-call one (the lot dropped from five units to zero), contradicting the
claimed full rollback. -/
theorem mid_sale_failure_keeps_earlier_decrement :
    (submit_sale exTwoProducts exTwoLineReq).errorOf =
      some (.insufficientStock 2 1) ∧
    (submit_sale exTwoProducts exTwoLineReq).state.sales = exTwoProducts.sales ∧
    (submit_sale exTwoProducts exTwoLineReq).state.saleItems =
      exTwoProducts.saleItems ∧
    (submit_sale exTwoProducts exTwoLineReq).state.stocks ≠ exTwoProducts.stocks ∧
    (submit_sale exTwoProducts exTwoLineReq).state.stocks =
      [⟨1, 1, 1, "b1", some 10, 0, 1⟩] := by
  decide

/-- Claim C2: FEFO at whole-line granularity.  When the sufficient lots
for the requested product, branch and quantity are exactly two lots with
distinct (non-null) expiry dates, the earlier-expiring lot is the one the
query selects, the sale commits, and that lot — identified by its primary
key — is the one decremented. -/
theorem fefo_earlier_expiry_lot_selected (s : State) (req : SaleRequest) (it : ReqItem)
    (p : Product) (l1 l2 : ProductStock) (d1 d2 : Nat)
    (hitems : req.items = [it]) (hphone : req.customer_phone = "")
    (hfp : findProduct s.products it.product_id = some p)
    (hfl : ¬ it.unit_price < p.min_price)
    (hcands : sufficientLots s.stocks p.id req.branchId it.qty = [l1, l2] ∨
              sufficientLots s.stocks p.id req.branchId it.qty = [l2, l1])
    (hd1 : l1.expiry_date = some d1) (hd2 : l2.expiry_date = some d2) (hlt : d1 < d2)
    (hcost : ¬ it.unit_price < l1.unit_cost) :
    chooseLot (sufficientLots s.stocks p.id req.branchId it.qty) = some l1 ∧
    (submit_sale s req).isOk = true ∧
    (submit_sale s req).state.stocks = decLot s.stocks l1.id it.qty := by
  have hch : chooseLot (sufficientLots s.stocks p.id req.branchId it.qty) = some l1 := by
    rcases hcands with h | h <;> rw [h] <;>
      simp [chooseLot, chooseLotAux, expiryLE, hd1, hd2] <;> omega
  have h1 := submit_sale_single s req it p hitems hphone hfp hfl
  simp only [allocateItems] at h1
  rw [hch] at h1
  dsimp only at h1
  rw [if_neg hcost] at h1
  rw [h1]
  exact ⟨hch, rfl, rfl⟩

/-- Witness for C2 at a concrete database: of two ten-unit lots expiring
on days 5 and 9, the day-5 lot is selected and decremented. -/
theorem fefo_earlier_expiry_lot_selected_witness :
    chooseLot (sufficientLots exFefoState.stocks 1 1 4) = some exLot1 ∧
    (submit_sale exFefoState exFefoReq).isOk = true ∧
    (submit_sale exFefoState exFefoReq).state.stocks =
      decLot exFefoState.stocks 1 4 :=
  fefo_earlier_expiry_lot_selected exFefoState exFefoReq ⟨1, 3, 4⟩
    ⟨1, "Amoxicillin", 10, 2⟩ exLot1 exLot2 5 9 rfl rfl (by decide) (by decide)
    (Or.inl (by decide)) rfl rfl (by decide) (by decide)

/-- Claim C3: when no single lot of the product at the branch holds the
requested quantity, the sale is rejected with the insufficient-stock error
naming the product and branch, and the stock, sale and sale-item tables
are left as they were — no multi-lot split is attempted (the hypothesis
does not ask the stocks to be empty, so the combined quantity of several
lots may well suffice). -/
theorem insufficient_single_lot_rejects_sale (s : State) (req : SaleRequest)
    (it : ReqItem) (p : Product)
    (hwf : WF s)
    (hitems : req.items = [it])
    (hphone : req.customer_phone = "")
    (hfp : findProduct s.products it.product_id = some p)
    (hfl : ¬ it.unit_price < p.min_price)
    (hnone : sufficientLots s.stocks p.id req.branchId it.qty = []) :
    (submit_sale s req).errorOf = some (.insufficientStock p.id req.branchId) ∧
    (submit_sale s req).state.stocks = s.stocks ∧
    (submit_sale s req).state.sales = s.sales ∧
    (submit_sale s req).state.saleItems = s.saleItems := by
  have h1 := submit_sale_single s req it p hitems hphone hfp hfl
  simp only [allocateItems] at h1
  rw [hnone] at h1
  rw [show chooseLot [] = none from rfl] at h1
  dsimp only at h1
  rw [h1]
  refine ⟨rfl, rfl, ?_, ?_⟩
  · show (s.sales ++ [(⟨s.nextSaleId, req.branchId, none, 0 + it.unit_price * it.qty,
      0 + it.unit_price * it.qty, req.notes⟩ : Sale)]).filter
        (fun sa => sa.id != s.nextSaleId) = s.sales
    exact filter_sales_restore s.sales s.nextSaleId hwf.2.2.1 _ rfl
  · show s.saleItems.filter (fun si => si.saleId != s.nextSaleId) = s.saleItems
    exact filter_items_restore s.saleItems s.nextSaleId hwf.2.2.2.2

/-- Witness for C3: five units are requested while the product's stock is
split over two three-unit lots (six units combined); the sale is rejected
with the insufficient-stock error and nothing changes. -/
theorem insufficient_single_lot_rejects_sale_witness :
    (submit_sale exSplitLots exOkReq).errorOf =
      some (.insufficientStock 1 1) ∧
    (submit_sale exSplitLots exOkReq).state.stocks = exSplitLots.stocks ∧
    (submit_sale exSplitLots exOkReq).state.sales = exSplitLots.sales ∧
    (submit_sale exSplitLots exOkReq).state.saleItems = exSplitLots.saleItems :=
  insufficient_single_lot_rejects_sale exSplitLots exOkReq ⟨1, 3, 5⟩
    ⟨1, "Amoxicillin", 10, 2⟩ (by decide) rfl rfl (by decide) (by decide) (by decide)

/-- Claim C4: a line priced below the chosen lot's `unit_cost` is rejected
with the below-cost error carrying the product, the requested price and
the cost, with no stock mutation for that line; and a committed sale
preserves the cost invariant — no stored SaleItem is priced below the
`unit_cost` of the lot it references. -/
theorem below_cost_rejected_and_cost_invariant :
    (∀ (s : State) (req : SaleRequest) (it : ReqItem) (p : Product)
        (chosen : ProductStock),
      req.items = [it] → req.customer_phone = "" →
      findProduct s.products it.product_id = some p →
      ¬ it.unit_price < p.min_price →
      chooseLot (sufficientLots s.stocks p.id req.branchId it.qty) = some chosen →
      it.unit_price < chosen.unit_cost →
      (submit_sale s req).errorOf =
        some (.saleBelowCost p.id it.unit_price chosen.unit_cost) ∧
      (submit_sale s req).state.stocks = s.stocks) ∧
    (∀ (s : State) (req : SaleRequest) (s' : State) (sid : Nat),
      WF s → costInv s → submit_sale s req = .ok s' sid → costInv s') := by
  constructor
  · intro s req it p chosen hitems hphone hfp hfl hc hcost
    have h1 := submit_sale_single s req it p hitems hphone hfp hfl
    simp only [allocateItems] at h1
    rw [hc] at h1
    dsimp only at h1
    rw [if_pos hcost] at h1
    rw [h1]
    exact ⟨rfl, rfl⟩
  · intro s req s' sid hwf hinv h
    obtain ⟨vitems, s1, cid, hv, he, hr, halloc⟩ := submit_sale_ok_inv s req s' sid h
    obtain ⟨-, hstocks, -, hitems1, -⟩ := resolveCustomer_ok_fields s _ _ s1 cid hr
    refine allocateItems_costInv _ _ vitems _ s' sid ?_ ?_ halloc
    · show ((s1.stocks).map ProductStock.id).Nodup
      rw [hstocks]; exact hwf.1
    · show costInvL s1.saleItems s1.stocks
      rw [hstocks, hitems1]; exact hinv

/-- Witness for C4: a line at price 3 (above the floor 2) on a lot costing
5 is rejected with the below-cost error naming price and cost; and a
concrete committed sale satisfies the cost invariant. -/
theorem below_cost_rejected_and_cost_invariant_witness :
    ((submit_sale exCostlyLot exBelowCostReq).errorOf =
        some (.saleBelowCost 1 3 5) ∧
      (submit_sale exCostlyLot exBelowCostReq).state.stocks = exCostlyLot.stocks) ∧
    costInv (submit_sale exTwoProducts exOkReq).state :=
  ⟨below_cost_rejected_and_cost_invariant.1 exCostlyLot exBelowCostReq ⟨1, 3, 2⟩
      ⟨1, "Amoxicillin", 10, 2⟩ ⟨1, 1, 1, "b1", some 10, 5, 5⟩ rfl rfl (by decide)
      (by decide) (by decide) (by decide),
   below_cost_rejected_and_cost_invariant.2 exTwoProducts exOkReq
      (submit_sale exTwoProducts exOkReq).state 1 (by decide) (by decide) rfl⟩

/-- Claim C5: a line priced below its product's `min_price` (with every
earlier line passing the parsing checks) is rejected with the
price-below-floor error naming the product and its floor, and the
database state returned is exactly the pre-call state — no stock or sale
table is touched; and a committed sale preserves the floor invariant — no
stored SaleItem is priced below its product's `min_price`. -/
theorem below_floor_rejected_and_floor_invariant :
    (∀ (s : State) (req : SaleRequest) (pre rest : List ReqItem)
        (it : ReqItem) (p : Product),
      req.items = pre ++ it :: rest →
      (∀ x ∈ pre, itemPasses s.products x) →
      findProduct s.products it.product_id = some p →
      it.unit_price < p.min_price →
      submit_sale s req = .err s (.priceBelowFloor p.id p.min_price)) ∧
    (∀ (s : State) (req : SaleRequest) (s' : State) (sid : Nat),
      WF s → floorInv s → submit_sale s req = .ok s' sid → floorInv s') := by
  constructor
  · intro s req pre rest it p hitems hpass hfp hlt
    unfold submit_sale
    rw [hitems, validateItems_floor_err s.products p it hfp hlt pre rest hpass]
  · intro s req s' sid hwf hinv h
    obtain ⟨vitems, s1, cid, hv, he, hr, halloc⟩ := submit_sale_ok_inv s req s' sid h
    obtain ⟨hprods1, -, -, hitems1, -⟩ := resolveCustomer_ok_fields s _ _ s1 cid hr
    obtain ⟨-, hprods, -⟩ := allocateItems_ok_frame _ _ _ _ _ _ halloc
    have hspec := validateItems_ok_spec s.products req.items vitems hv
    have hres : floorInvL s'.saleItems s.products := by
      refine allocateItems_floorInv _ _ s.products hwf.2.1 vitems _ s' sid hspec ?_ halloc
      show floorInvL s1.saleItems s.products
      rw [hitems1]; exact hinv
    show floorInvL s'.saleItems s'.products
    rw [hprods]
    dsimp only
    rw [hprods1]
    exact hres

/-- Witness for C5: a line at price 1 against floor 2 is rejected with the
price-below-floor error and the state is returned unchanged; and a
concrete committed sale satisfies the floor invariant. -/
theorem below_floor_rejected_and_floor_invariant_witness :
    submit_sale exTwoProducts exBelowFloorReq =
      .err exTwoProducts (.priceBelowFloor 1 2) ∧
    floorInv (submit_sale exTwoProducts exOkReq).state :=
  ⟨below_floor_rejected_and_floor_invariant.1 exTwoProducts exBelowFloorReq [] []
      ⟨1, 1, 2⟩ ⟨1, "Amoxicillin", 10, 2⟩ rfl
      (fun x hx => absurd hx (List.not_mem_nil x)) (by decide) (by decide),
   below_floor_rejected_and_floor_invariant.2 exTwoProducts exOkReq
      (submit_sale exTwoProducts exOkReq).state 1 (by decide) (by decide) rfl⟩

/-- Claim C6: starting from a well-formed state whose lots all hold
non-negative quantities, every lot still holds a non-negative quantity
after any `sale_create` call, whether it commits or is rejected at any
stage — a lot is decremented only after the query selected it with
`quantity >= qty`. -/
theorem submit_sale_preserves_nonneg (s : State) (req : SaleRequest)
    (hwf : WF s) (hnn : stocksNonneg s) :
    stocksNonneg (submit_sale s req).state := by
  unfold submit_sale
  cases hv : validateItems s.products req.items with
  | error e => exact hnn
  | ok vitems =>
    dsimp only
    by_cases he : vitems.isEmpty
    · rw [if_pos he]; exact hnn
    · rw [if_neg he]
      cases hr : resolveCustomer s req.customer_phone req.customer_name with
      | error e => exact hnn
      | ok pair =>
        obtain ⟨s1, cid⟩ := pair
        dsimp only
        obtain ⟨-, hstocks, -, -, -⟩ := resolveCustomer_ok_fields s _ _ s1 cid hr
        apply allocateItems_nonneg
        · show ((s1.stocks).map ProductStock.id).Nodup
          rw [hstocks]; exact hwf.1
        · show ∀ st ∈ s1.stocks, 0 ≤ st.quantity
          rw [hstocks]; exact hnn

/-- Witness for C6 at a concrete call that is rejected after its first
line already decremented a lot: the surviving quantities are still
non-negative. -/
theorem submit_sale_preserves_nonneg_witness :
    stocksNonneg (submit_sale exTwoProducts exTwoLineReq).state :=
  submit_sale_preserves_nonneg exTwoProducts exTwoLineReq (by decide) (by decide)

/-- Claim C7 counterexample: the POS product-add path accepts a product
whose `min_price` (10) strictly exceeds its `price` (5) — `ProductForm`
carries no such comparison — and stores it, so the claimed entry-time
invariant `min_price <= price` fails on the POS path. -/
theorem pos_product_form_accepts_inverted_floor :
    productFormValid 5 10 = true ∧
    product_add emptyState 1 "Paracetamol" 5 10 =
      some ⟨[⟨1, "Paracetamol", 5, 10⟩], [], [], [], [], 1, 1⟩ := by
  decide

/-- Claim C7 as amended: only the admin form enforces the floor-price
rule.  `ProductAdminForm.clean` rejects any submission with
`min_price > price`, while the POS `product_add` path stores every
submission with a non-negative `min_price` regardless of `price`. -/
theorem min_price_check_admin_only (price minp : Int) (hgt : price < minp) :
    productAdminFormValid price minp = false ∧
    (0 ≤ minp → ∀ (s : State) (nid : Nat) (nm : String),
      (product_add s nid nm price minp).isSome = true) := by
  constructor
  · have hnle : ¬ minp ≤ price := not_le.mpr hgt
    simp [productAdminFormValid, hnle]
  · intro h0 s nid nm
    simp [product_add, productFormValid, h0]

/-- Witness for the amended C7: at price 5 and floor 10 the admin form
rejects while the POS path stores the product. -/
theorem min_price_check_admin_only_witness :
    productAdminFormValid 5 10 = false ∧
    (product_add emptyState 1 "Paracetamol" 5 10).isSome = true :=
  ⟨(min_price_check_admin_only 5 10 (by decide)).1,
   (min_price_check_admin_only 5 10 (by decide)).2 (by decide) emptyState 1 "Paracetamol"⟩

/-- Claim C8 (code behaviour at the failing input): a line with quantity
-3 sails through the view's parsing (which never checks positivity; the
`min_value=1` of the unused `SaleItemForm` shows the intended rule), the
sale commits with a negative-quantity SaleItem and a negative line total,
and the lot's stock INCREASES from 5 to 8 units. -/
theorem nonpositive_qty_line_commits :
    saleItemFormValidQty (-3) = false ∧
    (submit_sale exTwoProducts exNegativeQtyReq).isOk = true ∧
    (submit_sale exTwoProducts exNegativeQtyReq).state.saleItems =
      [⟨1, 1, 1, 3, -3, -9⟩] ∧
    (submit_sale exTwoProducts exNegativeQtyReq).state.stocks =
      [⟨1, 1, 1, "b1", some 10, 8, 1⟩] := by
  decide

/-- Claim C9 counterexample: with two existing customers sharing the phone
"0700", a sale quoting that phone does not link to the first match — the
`get` inside `get_or_create` raises `MultipleObjectsReturned` and the
request fails (before any sale or stock mutation). -/
theorem shared_phone_raises_instead_of_first_match :
    (submit_sale exSharedPhone exSharedPhoneReq).errorOf =
      some (.multipleCustomers "0700") ∧
    (submit_sale exSharedPhone exSharedPhoneReq).state = exSharedPhone := by
  decide

/-- Claim C9 as amended: customer resolution by phone links the sale to
the unique existing customer when exactly one row matches (no duplicate is
created), creates a fresh customer with the given name when none matches,
and raises `MultipleObjectsReturned` — failing the request — when several
rows share the phone. -/
theorem customer_resolution_by_phone_cases (s : State) (phone name : String) :
    (∀ c : Customer, s.customers.filter (fun c2 => c2.phone == phone) = [c] →
      getOrCreateCustomer s phone name = .ok (s, c.id)) ∧
    (s.customers.filter (fun c2 => c2.phone == phone) = [] →
      getOrCreateCustomer s phone name =
        .ok ({ s with
          customers := s.customers ++ [⟨s.nextCustomerId, name, phone⟩],
          nextCustomerId := s.nextCustomerId + 1 }, s.nextCustomerId)) ∧
    (∀ (c1 c2 : Customer) (cs : List Customer),
      s.customers.filter (fun c2 => c2.phone == phone) = c1 :: c2 :: cs →
      getOrCreateCustomer s phone name = .error (.multipleCustomers phone)) := by
  refine ⟨?_, ?_, ?_⟩
  · intro c h
    unfold getOrCreateCustomer
    rw [h]
  · intro h
    unfold getOrCreateCustomer
    rw [h]
  · intro c1 c2 cs h
    unfold getOrCreateCustomer
    rw [h]

/-- Witness for the amended C9: one matching customer links without a
duplicate; no match creates the customer; two matches raise. -/
theorem customer_resolution_by_phone_cases_witness :
    getOrCreateCustomer exOneCustomer "0700" "Carol" = .ok (exOneCustomer, 1) ∧
    getOrCreateCustomer emptyState "0700" "Carol" =
      .ok (⟨[], [], [⟨1, "Carol", "0700"⟩], [], [], 1, 2⟩, 1) ∧
    getOrCreateCustomer exSharedPhone "0700" "Carol" =
      .error (.multipleCustomers "0700") :=
  ⟨(customer_resolution_by_phone_cases exOneCustomer "0700" "Carol").1
      ⟨1, "Alice", "0700"⟩ (by decide),
   (customer_resolution_by_phone_cases emptyState "0700" "Carol").2.1 (by decide),
   (customer_resolution_by_phone_cases exSharedPhone "0700" "Carol").2.2
      ⟨1, "Alice", "0700"⟩ ⟨2, "Bob", "0700"⟩ [] (by decide)⟩

/-- Claim C10: every sale committed through `sale_create` stores
`cash_received` equal to the computed `total` (it is never a tendered
amount), so the change due computed by `SaleAdmin.change_amount` is zero
for every such sale; the committed sale row exists in the resulting
state. -/
theorem cash_received_set_to_total (s : State) (req : SaleRequest)
    (s' : State) (sid : Nat)
    (hwf : WF s) (h : submit_sale s req = .ok s' sid) :
    (∃ sa ∈ s'.sales, sa.id = sid) ∧
    ∀ sa ∈ s'.sales, sa.id = sid →
      sa.cash_received = sa.total ∧ change_amount sa = 0 := by
  obtain ⟨vitems, s1, cid, hv, he, hr, halloc⟩ := submit_sale_ok_inv s req s' sid h
  obtain ⟨-, -, hsales1, -, hnext⟩ := resolveCustomer_ok_fields s _ _ s1 cid hr
  obtain ⟨hsales, -, hsid⟩ := allocateItems_ok_frame _ _ _ _ _ _ halloc
  constructor
  · refine ⟨⟨s1.nextSaleId, req.branchId, cid,
      vitems.foldl (fun acc pit => acc + pit.2.unit_price * pit.2.qty) 0,
      vitems.foldl (fun acc pit => acc + pit.2.unit_price * pit.2.qty) 0,
      req.notes⟩, ?_, ?_⟩
    · rw [hsales]
      dsimp only
      exact List.mem_append_right _ (List.mem_singleton_self _)
    · exact hsid.symm
  · intro sa hsa hid
    rw [hsales] at hsa
    dsimp only at hsa
    rcases List.mem_append.mp hsa with hold | hnew2
    · rw [hsales1] at hold
      have hb := hwf.2.2.1 sa hold
      exfalso
      omega
    · have hsa_eq : sa = ⟨s1.nextSaleId, req.branchId, cid,
          vitems.foldl (fun acc pit => acc + pit.2.unit_price * pit.2.qty) 0,
          vitems.foldl (fun acc pit => acc + pit.2.unit_price * pit.2.qty) 0,
          req.notes⟩ := by
        simpa using hnew2
      subst hsa_eq
      exact ⟨rfl, by simp [change_amount]⟩

/-- Witness for C10 at a concrete committed sale: the stored row exists,
its `cash_received` equals its `total`, and its change due is zero. -/
theorem cash_received_set_to_total_witness :
    (∃ sa ∈ (submit_sale exTwoProducts exOkReq).state.sales, sa.id = 1) ∧
    ∀ sa ∈ (submit_sale exTwoProducts exOkReq).state.sales, sa.id = 1 →
      sa.cash_received = sa.total ∧ change_amount sa = 0 :=
  cash_received_set_to_total exTwoProducts exOkReq
    (submit_sale exTwoProducts exOkReq).state 1 (by decide) rfl
